import Mathlib

/-!
Shallow embedding of the PyElectron IPC stack
(src/pyelectron/ipc/{protocol,security,transport,manager}.py).

Conventions of the embedding:
* JSON values are the inductive `Json`; the Python `json` standard library is
  external to the repository, so a raw inbound string is modelled by its parse
  outcome (`Option Json`, `none` = `json.JSONDecodeError`), and serialization
  identifies a serialized message with the JSON value it denotes.
* Python exceptions become `Except PyErr`; the `except` clauses of the source
  are translated branch by branch.  `asyncio.CancelledError` derives from
  `BaseException` on the Python versions the package requires (>= 3.8), so it
  is *not* covered by `except Exception`; it is modelled by a distinct
  call outcome.
* Wall-clock time (`time.time()`) is modelled by exact rationals.
* Registered handlers and middleware are abstract functions returning
  `Except PyErr Json` / `Except PyErr Unit`, matching the fact that the
  source treats them as opaque callables that may raise.
-/

/-- JSON values as produced by `json.loads`.  Numbers are modelled as
integers (the claims only involve integral numbers). -/
inductive Json where
  | null : Json
  | bool : Bool → Json
  | num : Int → Json
  | str : String → Json
  | arr : List Json → Json
  | obj : List (String × Json) → Json
deriving Repr

mutual

def Json.beq : Json → Json → Bool
  | .null, .null => true
  | .bool a, .bool b => a == b
  | .num a, .num b => a == b
  | .str a, .str b => a == b
  | .arr a, .arr b => Json.beqList a b
  | .obj a, .obj b => Json.beqFields a b
  | _, _ => false

def Json.beqList : List Json → List Json → Bool
  | [], [] => true
  | a :: as, b :: bs => Json.beq a b && Json.beqList as bs
  | _, _ => false

def Json.beqFields : List (String × Json) → List (String × Json) → Bool
  | [], [] => true
  | (k, a) :: as, (l, b) :: bs => k == l && Json.beq a b && Json.beqFields as bs
  | _, _ => false

end

instance : BEq Json := ⟨Json.beq⟩

mutual

theorem Json.eq_of_beq : ∀ {a b : Json}, Json.beq a b = true → a = b
  | .null, .null, _ => rfl
  | .bool _, .bool _, h => by
      simp only [Json.beq, beq_iff_eq] at h; exact congrArg Json.bool h
  | .num _, .num _, h => by
      simp only [Json.beq, beq_iff_eq] at h; exact congrArg Json.num h
  | .str _, .str _, h => by
      simp only [Json.beq, beq_iff_eq] at h; exact congrArg Json.str h
  | .arr _, .arr _, h => congrArg Json.arr (Json.eq_of_beqList h)
  | .obj _, .obj _, h => congrArg Json.obj (Json.eq_of_beqFields h)

theorem Json.eq_of_beqList : ∀ {a b : List Json}, Json.beqList a b = true → a = b
  | [], [], _ => rfl
  | _ :: _, _ :: _, h => by
      simp only [Json.beqList, Bool.and_eq_true] at h
      exact congrArg₂ List.cons (Json.eq_of_beq h.1) (Json.eq_of_beqList h.2)

theorem Json.eq_of_beqFields :
    ∀ {a b : List (String × Json)}, Json.beqFields a b = true → a = b
  | [], [], _ => rfl
  | (_, _) :: _, (_, _) :: _, h => by
      simp only [Json.beqFields, Bool.and_eq_true, beq_iff_eq] at h
      refine congrArg₂ List.cons ?_ (Json.eq_of_beqFields h.2)
      exact Prod.ext h.1.1 (Json.eq_of_beq h.1.2)

end

mutual

theorem Json.beq_refl : ∀ (a : Json), Json.beq a a = true
  | .null => rfl
  | .bool b => by simp [Json.beq]
  | .num n => by simp [Json.beq]
  | .str s => by simp [Json.beq]
  | .arr xs => Json.beqList_refl xs
  | .obj fs => Json.beqFields_refl fs

theorem Json.beqList_refl : ∀ (xs : List Json), Json.beqList xs xs = true
  | [] => rfl
  | x :: xs => by
      simp only [Json.beqList, Bool.and_eq_true]
      exact ⟨Json.beq_refl x, Json.beqList_refl xs⟩

theorem Json.beqFields_refl :
    ∀ (fs : List (String × Json)), Json.beqFields fs fs = true
  | [] => rfl
  | (k, v) :: fs => by
      simp only [Json.beqFields, Bool.and_eq_true, beq_self_eq_true]
      exact ⟨⟨trivial, Json.beq_refl v⟩, Json.beqFields_refl fs⟩

end

instance : DecidableEq Json := fun a b =>
  if h : Json.beq a b = true then
    isTrue (Json.eq_of_beq h)
  else
    isFalse (fun he => h (he ▸ Json.beq_refl a))

/-- First-match lookup in an association list (Python `dict` access for the
dictionaries built by the source, whose keys are unique). -/
def lookupField {α : Type} : List (String × α) → String → Option α
  | [], _ => none
  | (k, v) :: rest, key => if k = key then some v else lookupField rest key

def Json.isObj : Json → Bool
  | .obj _ => true
  | _ => false

/-- Raw key lookup: `some v` iff the key is present (even with value `null`). -/
def pyGet (j : Json) (k : String) : Option Json :=
  match j with
  | .obj fs => lookupField fs k
  | _ => none

/-- Python `data.get(k)`: a present `null` value and an absent key both give
Python `None`, modelled as `none`. -/
def dGet (j : Json) (k : String) : Option Json :=
  match pyGet j k with
  | some .null => none
  | x => x

/-- Python `k in data`. -/
def hasKey (j : Json) (k : String) : Bool :=
  (pyGet j k).isSome

/-- Python exception values, by class (`pyelectron.utils.errors` plus the
builtin / asyncio exceptions the IPC code distinguishes). -/
inductive PyErr where
  | security : String → PyErr        -- SecurityError
  | validation : String → PyErr      -- ValidationError
  | ipc : String → PyErr             -- IPCError
  | rpc : Json → Json → Json → PyErr -- RPCError(message, code, data) built from a wire response
  | timeoutErr : PyErr               -- asyncio.TimeoutError
  | invalidState : String → PyErr    -- asyncio.InvalidStateError
  | cancelledBase : PyErr            -- asyncio.CancelledError (a BaseException)
  | generic : String → PyErr         -- any other Exception
deriving Repr, DecidableEq

/-- `str(e)`: `PyElectronError.__str__` returns the message (the source never
sets `details` on the errors modelled here). -/
def PyErr.str : PyErr → String
  | .security m => m
  | .validation m => m
  | .ipc m => m
  | .rpc (.str m) _ _ => m
  | .rpc _ _ _ => "rpc error"
  | .timeoutErr => ""
  | .invalidState m => m
  | .cancelledBase => ""
  | .generic m => m

def PyErr.isValidationError : PyErr → Bool
  | .validation _ => true
  | _ => false

/-! ### Protocol engine (src/pyelectron/ipc/protocol.py) -/

/-- `RPCErrorCode` enum values. -/
def RPCErrorCode.PARSE_ERROR : Int := -32700
def RPCErrorCode.INVALID_REQUEST : Int := -32600
def RPCErrorCode.METHOD_NOT_FOUND : Int := -32601
def RPCErrorCode.INVALID_PARAMS : Int := -32602
def RPCErrorCode.INTERNAL_ERROR : Int := -32603

/-- A registered handler, abstracted over the positional/keyword binding of
its parameters: it receives the request's `params` value (`none` when the
request carries no params) and either returns a result or raises. -/
abbrev Handler := Option Json → Except PyErr Json

/-- A middleware callable: `await middleware(method_name, params)`. -/
abbrev Middleware := String → Option Json → Except PyErr Unit

/-- The single-resolution state of an `asyncio.Future` held in
`pending_requests`. -/
inductive FutureState where
  | pending : FutureState
  | doneResult : Json → FutureState
  | doneError : PyErr → FutureState
  | cancelled : FutureState
deriving Repr, DecidableEq

/-- `JSONRPCProtocol` mutable state: registered methods, middleware chain and
the pending-call table (request id, as a JSON value, to future). -/
structure JSONRPCProtocol where
  methods : List (String × Handler)
  middleware : List Middleware
  pending_requests : List (Json × FutureState)

/-- Remove the entry for a key from the pending table (`dict.pop`). -/
def eraseKey : List (Json × FutureState) → Json → List (Json × FutureState)
  | [], _ => []
  | (k, v) :: rest, key => if k = key then rest else (k, v) :: eraseKey rest key

def lookupKey : List (Json × FutureState) → Json → Option FutureState
  | [], _ => none
  | (k, v) :: rest, key => if k = key then some v else lookupKey rest key

/-- `JSONRPCProtocol.create_request` with an explicit id (the source
generates a fresh UUID string when the id argument is `None`; the model takes
the id, fresh or caller-supplied, as a parameter).  The result is the
serialized message, identified with the JSON envelope it denotes; field
order matches `_serialize_message`. -/
def create_request (method : String) (params : Option Json) (request_id : Json) : Json :=
  Json.obj ([("jsonrpc", Json.str "2.0"), ("id", request_id), ("method", Json.str method)] ++
    (match params with
     | some p => [("params", p)]
     | none => []))

/-- `JSONRPCProtocol.create_response`. -/
def create_response (request_id : Json) (result : Json) : Json :=
  Json.obj [("jsonrpc", Json.str "2.0"), ("id", request_id), ("result", result)]

/-- `JSONRPCProtocol.create_error_response` (a `none` id serializes as
`null`; `data` defaults to `null`). -/
def create_error_response (request_id : Option Json) (code : Int) (message : String)
    (data : Json) : Json :=
  Json.obj [("jsonrpc", Json.str "2.0"), ("id", request_id.getD Json.null),
    ("error", Json.obj [("code", Json.num code), ("message", Json.str message),
      ("data", data)])]

/-- `JSONRPCProtocol._invalid_request_error`. -/
def invalid_request_error (request_id : Option Json) : Json :=
  create_error_response request_id RPCErrorCode.INVALID_REQUEST "Invalid request" Json.null

/-- Run the middleware chain in order; the first raise aborts the chain. -/
def runMiddleware : List Middleware → String → Option Json → Except PyErr Unit
  | [], _, _ => Except.ok ()
  | mw :: rest, m, p =>
    match mw m p with
    | Except.error e => Except.error e
    | Except.ok _ => runMiddleware rest m p

/-- Python values that `dict` lookup cannot hash (`list`/`dict` ids raise
`TypeError` when used as keys of `pending_requests`). -/
def Json.unhashable : Json → Bool
  | .arr _ => true
  | .obj _ => true
  | _ => false

/-- `JSONRPCProtocol._handle_response`: pop the matching pending future and
resolve it.  Returns the exception escaping to `process_message`'s outer
`except` (if any) together with the updated pending table. -/
def JSONRPCProtocol.handle_response (pending : List (Json × FutureState)) (data : Json) :
    Except PyErr Unit × List (Json × FutureState) :=
  let request_id := (pyGet data "id").getD Json.null
  if request_id.unhashable then
    (Except.error (PyErr.generic "unhashable type"), pending)
  else
    match lookupKey pending request_id with
    | none => (Except.ok (), pending)  -- warning logged, no state change
    | some fut =>
      let pending' := eraseKey pending request_id
      if hasKey data "error" then
        match pyGet data "error" with
        | some (Json.obj errFields) =>
          -- error = RPCError(error_data.get('message', ...), .get('code', -1), .get('data'))
          let _err := PyErr.rpc
            ((lookupField errFields "message").getD (Json.str "Unknown error"))
            ((lookupField errFields "code").getD (Json.num (-1)))
            ((lookupField errFields "data").getD Json.null)
          match fut with
          | FutureState.pending => (Except.ok (), pending')
          | _ => (Except.error (PyErr.invalidState "invalid state"), pending')
        | _ =>
          -- error_data.get on a non-dict raises AttributeError
          (Except.error (PyErr.generic "object has no attribute get"), pending')
      else
        match fut with
        | FutureState.pending => (Except.ok (), pending')
        | _ => (Except.error (PyErr.invalidState "invalid state"), pending')

/-- `JSONRPCProtocol._handle_request`: dispatch a request or notification.
Every exception of the middleware or the handler is caught inside
(`except ValidationError` / `except Exception`), so the result is a plain
optional response. -/
def JSONRPCProtocol.handle_request (proto : JSONRPCProtocol) (data : Json) : Option Json :=
  let request_id := dGet data "id"
  match dGet data "method" with
  | some (Json.str method_name) =>
    match lookupField proto.methods method_name with
    | none =>
      match request_id with
      | some rid => some (create_error_response (some rid) RPCErrorCode.METHOD_NOT_FOUND
          ("Method not found: " ++ method_name) Json.null)
      | none => none
    | some handler =>
      let params := dGet data "params"
      match runMiddleware proto.middleware method_name params with
      | Except.error e =>
        if e.isValidationError then
          match request_id with
          | some rid => some (create_error_response (some rid) RPCErrorCode.INVALID_PARAMS
              e.str Json.null)
          | none => none
        else
          match request_id with
          | some rid => some (create_error_response (some rid) RPCErrorCode.INTERNAL_ERROR
              ("Method execution error: " ++ e.str) Json.null)
          | none => none
      | Except.ok _ =>
        match params with
        | none =>
          match handler none with
          | Except.ok result =>
            match request_id with
            | some rid => some (create_response rid result)
            | none => none
          | Except.error e =>
            if e.isValidationError then
              match request_id with
              | some rid => some (create_error_response (some rid)
                  RPCErrorCode.INVALID_PARAMS e.str Json.null)
              | none => none
            else
              match request_id with
              | some rid => some (create_error_response (some rid)
                  RPCErrorCode.INTERNAL_ERROR ("Method execution error: " ++ e.str) Json.null)
              | none => none
        | some (Json.arr xs) =>
          match handler (some (Json.arr xs)) with
          | Except.ok result =>
            match request_id with
            | some rid => some (create_response rid result)
            | none => none
          | Except.error e =>
            if e.isValidationError then
              match request_id with
              | some rid => some (create_error_response (some rid)
                  RPCErrorCode.INVALID_PARAMS e.str Json.null)
              | none => none
            else
              match request_id with
              | some rid => some (create_error_response (some rid)
                  RPCErrorCode.INTERNAL_ERROR ("Method execution error: " ++ e.str) Json.null)
              | none => none
        | some (Json.obj fs) =>
          match handler (some (Json.obj fs)) with
          | Except.ok result =>
            match request_id with
            | some rid => some (create_response rid result)
            | none => none
          | Except.error e =>
            if e.isValidationError then
              match request_id with
              | some rid => some (create_error_response (some rid)
                  RPCErrorCode.INVALID_PARAMS e.str Json.null)
              | none => none
            else
              match request_id with
              | some rid => some (create_error_response (some rid)
                  RPCErrorCode.INTERNAL_ERROR ("Method execution error: " ++ e.str) Json.null)
              | none => none
        | some _ =>
          match request_id with
          | some rid => some (create_error_response (some rid) RPCErrorCode.INVALID_PARAMS
              "Invalid parameters" Json.null)
          | none => none
  | _ => some (invalid_request_error request_id)  -- method present but not a string

/-- `JSONRPCProtocol.process_message`.  The input is the parse outcome of the
raw string (`none` = `json.JSONDecodeError`).  Returns the optional
serialized response and the updated protocol state; the outer
`except Exception` converts any escaping exception (only `_handle_response`
can raise one) into an Internal-Error response. -/
def JSONRPCProtocol.process_message (proto : JSONRPCProtocol) (parsed : Option Json) :
    Option Json × JSONRPCProtocol :=
  match parsed with
  | none => (some (create_error_response none RPCErrorCode.PARSE_ERROR "Parse error" Json.null),
      proto)
  | some data =>
    if !data.isObj then
      (some (invalid_request_error none), proto)
    else if dGet data "jsonrpc" ≠ some (Json.str "2.0") then
      (some (invalid_request_error (dGet data "id")), proto)
    else if hasKey data "method" then
      (proto.handle_request data, proto)
    else if hasKey data "result" || hasKey data "error" then
      match JSONRPCProtocol.handle_response proto.pending_requests data with
      | (Except.ok _, p') => (none, { proto with pending_requests := p' })
      | (Except.error e, p') =>
        (some (create_error_response none RPCErrorCode.INTERNAL_ERROR "Internal error"
          (Json.str e.str)), { proto with pending_requests := p' })
    else
      (some (invalid_request_error (dGet data "id")), proto)

/-! ### Security layer (src/pyelectron/ipc/security.py) -/

/-- `SecurityConfig` dataclass (defaults as in the source).  The field
`validate_json_structure` of the dataclass is rendered as
`validate_json_structure_flag` to keep it apart from the validator method of
the same name. -/
structure SecurityConfig where
  max_requests_per_minute : Nat := 100
  max_payload_size : Nat := 1048576
  require_auth_token : Bool := true
  auth_token : Option String := none
  allowed_methods : Option (List String) := none
  blocked_methods : Option (List String) := none
  validate_json_structure_flag : Bool := true
  max_string_length : Nat := 10000
  max_array_length : Nat := 1000
  max_object_depth : Nat := 10

/-- `RateLimiter` state: `requests` is the `defaultdict(deque)` of per-client
timestamp queues (a total map with default `[]`, oldest first).  Timestamps
(`time.time()`) are exact rationals. -/
structure RateLimiter where
  max_requests : Nat
  window_seconds : ℚ
  requests : String → List ℚ

/-- `RateLimiter.check_rate_limit` at current time `now`: evict the client's
timestamps older than the window from the front, refuse if at the limit,
otherwise record `now`. -/
def RateLimiter.check_rate_limit (rl : RateLimiter) (client_id : String) (now : ℚ) :
    Bool × RateLimiter :=
  let client_requests := rl.requests client_id
  let evicted := client_requests.dropWhile (fun t => t < now - rl.window_seconds)
  if evicted.length ≥ rl.max_requests then
    (false, { rl with requests := fun c => if c = client_id then evicted else rl.requests c })
  else
    (true, { rl with
      requests := fun c => if c = client_id then evicted ++ [now] else rl.requests c })

mutual

/-- `InputValidator.validate_json_structure`: recursive depth / string-length /
array-length checks. -/
def InputValidator.validate_json_structure (cfg : SecurityConfig) (data : Json)
    (depth : Nat) : Except PyErr Unit :=
  if depth > cfg.max_object_depth then
    Except.error (PyErr.security
      ("JSON structure too deep: " ++ toString depth ++ " > " ++ toString cfg.max_object_depth))
  else
    match data with
    | Json.str s =>
      if s.length > cfg.max_string_length then
        Except.error (PyErr.security
          ("String too long: " ++ toString s.length ++ " > " ++ toString cfg.max_string_length))
      else Except.ok ()
    | Json.arr xs =>
      if xs.length > cfg.max_array_length then
        Except.error (PyErr.security
          ("Array too long: " ++ toString xs.length ++ " > " ++ toString cfg.max_array_length))
      else InputValidator.validateItems cfg xs (depth + 1)
    | Json.obj fs => InputValidator.validateFields cfg fs (depth + 1)
    | _ => Except.ok ()

/-- The `for item in data` loop over an array's items. -/
def InputValidator.validateItems (cfg : SecurityConfig) (xs : List Json) (depth : Nat) :
    Except PyErr Unit :=
  match xs with
  | [] => Except.ok ()
  | x :: rest =>
    match InputValidator.validate_json_structure cfg x depth with
    | Except.error e => Except.error e
    | Except.ok _ => InputValidator.validateItems cfg rest depth

/-- The `for key, value in data.items()` loop over an object's fields (keys of
the model are strings by construction, so the `isinstance(key, str)` check
never fires). -/
def InputValidator.validateFields (cfg : SecurityConfig) (fs : List (String × Json))
    (depth : Nat) : Except PyErr Unit :=
  match fs with
  | [] => Except.ok ()
  | (k, v) :: rest =>
    if k.length > cfg.max_string_length then
      Except.error (PyErr.security ("Object key too long: " ++ toString k.length))
    else
      match InputValidator.validate_json_structure cfg v depth with
      | Except.error e => Except.error e
      | Except.ok _ => InputValidator.validateFields cfg rest depth

end

/-- The fixed `dangerous_patterns` list of `validate_method_name`. -/
def dangerousPatterns : List String :=
  ["__", "exec", "eval", "import", "open", "file", "system"]

/-- Contiguous-sublist test (`List.isPrefixOf` at every start position). -/
def listHasSub (hay pat : List Char) : Bool :=
  match hay with
  | [] => pat.isEmpty
  | _ :: t => pat.isPrefixOf hay || listHasSub t pat

/-- Substring test on strings viewed as character lists (Python `in`). -/
def strContains (hay pat : String) : Bool :=
  listHasSub hay.toList pat.toList

/-- `InputValidator.validate_method_name`: block-list, allow-list and
dangerous-substring checks. -/
def InputValidator.validate_method_name (cfg : SecurityConfig) (method : String) :
    Except PyErr Unit :=
  if (match cfg.blocked_methods with
      | some bs => !bs.isEmpty && bs.contains method
      | none => false) then
    Except.error (PyErr.security ("Method blocked: " ++ method))
  else if (match cfg.allowed_methods with
      | some as => !as.isEmpty && !as.contains method
      | none => false) then
    Except.error (PyErr.security ("Method not allowed: " ++ method))
  else if dangerousPatterns.any (fun pat => strContains method.toLower pat) then
    Except.error (PyErr.security ("Potentially dangerous method name: " ++ method))
  else
    Except.ok ()

/-- The `dangerous_keys` of `validate_parameters`. -/
def dangerousKeys : List String := ["__class__", "__module__", "__globals__", "func_code"]

/-- `InputValidator.validate_parameters`. -/
def InputValidator.validate_parameters (cfg : SecurityConfig) (params : Option Json) :
    Except PyErr Unit :=
  match params with
  | none => Except.ok ()
  | some p =>
    match InputValidator.validate_json_structure cfg p 0 with
    | Except.error e => Except.error e
    | Except.ok _ =>
      match p with
      | Json.obj fs =>
        match fs.find? (fun kv => dangerousKeys.contains kv.1) with
        | some kv => Except.error (PyErr.security ("Dangerous parameter name: " ++ kv.1))
        | none => Except.ok ()
      | _ => Except.ok ()

/-! ### Token authentication (`TokenAuthenticator`)

Python `str` values manipulated character-wise (tokens, signatures) are
modelled as `List Char`.  The HMAC-SHA256 hexdigest (`hmac`/`hashlib`,
standard library) and the canonical JSON dump / parse of the claims
(`json.dumps(..., sort_keys=True)` / `json.loads`) are external primitives,
taken as function parameters; theorems state the properties of those
primitives they rely on (determinism is implicit in their being functions,
the hexdigest containing no pipe character is a hypothesis).  Every error
`verify_token` raises is a `SecurityError`; the error value is its message. -/

/-- `{**payload, 'timestamp': int(time.time())}`: set-or-add the timestamp
claim. -/
def setKey (fs : List (String × Json)) (k : String) (v : Json) : List (String × Json) :=
  match fs with
  | [] => [(k, v)]
  | (k', v') :: rest => if k' = k then (k', v) :: rest else (k', v') :: setKey rest k v

/-- `TokenAuthenticator.generate_token`: canonical claims JSON, a pipe, and
the hexdigest of the claims. -/
def TokenAuthenticator.generate_token (hmacHex : List Char → List Char)
    (dumps : List (String × Json) → List Char) (payload : List (String × Json))
    (now : Int) : List Char :=
  let json_payload := dumps (setKey payload "timestamp" (Json.num now))
  json_payload ++ '|' :: hmacHex json_payload

/-- `token.rsplit('|', 1)`: split at the *last* pipe; `none` when the token
contains no pipe (the `'|' not in token` guard). -/
def rsplitBar : List Char → Option (List Char × List Char)
  | [] => none
  | c :: rest =>
    match rsplitBar rest with
    | some (a, b) => some (c :: a, b)
    | none => if c = '|' then some ([], rest) else none

/-- The re-wrap performed by `verify_token`'s final `except Exception`
clause: every `SecurityError` raised inside the `try` body is caught there
and re-raised as `SecurityError(f"Token verification failed: {e}")`. -/
def wrapVerifyMsg (inner : List Char) : List Char :=
  "Token verification failed: ".toList ++ inner

/-- The expiry message `f"Token expired: {token_age}s > {max_age_seconds}s"`. -/
def tokenExpiredMsg (token_age max_age_seconds : Int) : List Char :=
  "Token expired: ".toList ++ (toString token_age).toList ++ "s > ".toList ++
    (toString max_age_seconds).toList ++ "s".toList

/-- `TokenAuthenticator.verify_token` at current time `now`.  `loads` is
`json.loads` on the payload part (`Except` error = `JSONDecodeError`
message).  The error result is the message of the raised `SecurityError`. -/
def TokenAuthenticator.verify_token (hmacHex : List Char → List Char)
    (loads : List Char → Except (List Char) Json) (token : List Char)
    (max_age_seconds : Int) (now : Int) : Except (List Char) Json :=
  match rsplitBar token with
  | none => Except.error (wrapVerifyMsg "Invalid token format".toList)
  | some (json_payload, signature) =>
    let expected_signature := hmacHex json_payload
    if signature ≠ expected_signature then
      Except.error (wrapVerifyMsg "Invalid token signature".toList)
    else
      match loads json_payload with
      | Except.error e => Except.error ("Invalid token payload: ".toList ++ e)
      | Except.ok payload =>
        match payload with
        | Json.obj fs =>
          match lookupField fs "timestamp" with
          | some (Json.num ts) =>
            let token_age := now - ts
            if token_age > max_age_seconds then
              Except.error (wrapVerifyMsg (tokenExpiredMsg token_age max_age_seconds))
            else
              Except.ok payload
          | some _ =>
            -- non-numeric timestamp: the subtraction raises TypeError, re-wrapped
            Except.error (wrapVerifyMsg "unsupported operand type".toList)
          | none => Except.error (wrapVerifyMsg "Token missing timestamp".toList)
        | _ =>
          -- `'timestamp' not in payload` on a non-container raises TypeError
          Except.error (wrapVerifyMsg "argument of type is not iterable".toList)

/-- `IPCSecurity.authenticator` exists iff the configured `auth_token` is
truthy (non-`None` and non-empty). -/
def authenticatorPresent (cfg : SecurityConfig) : Bool :=
  match cfg.auth_token with
  | some s => !(s = "")
  | none => false

/-- The parse outcome of a raw inbound message string: its UTF-8 byte length
and its `json.loads` result (`none` = `JSONDecodeError`). -/
structure RawMsg where
  byteLen : Nat
  parsed : Option Json

/-- `IPCSecurity.validate_incoming_message`: rate limit, size check, parse,
structural validation, authentication, then method/parameter checks.
`verifier` abstracts `self.authenticator.verify_token` (with its default
`max_age_seconds`) on a presented token.  Returns the validated data or the
raised error, together with the updated rate-limiter state (the rate-limit
check mutates its window even when a later step raises). -/
def IPCSecurity.validate_incoming_message (cfg : SecurityConfig)
    (verifier : String → Except PyErr Json) (rl : RateLimiter) (msg : RawMsg)
    (client_id : String) (auth_token : Option String) (now : ℚ) :
    Except PyErr Json × RateLimiter :=
  let (withinLimit, rl') := rl.check_rate_limit client_id now
  if !withinLimit then
    (Except.error (PyErr.security "Rate limit exceeded"), rl')
  else if msg.byteLen > cfg.max_payload_size then
    (Except.error (PyErr.security
      ("Message too large: " ++ toString msg.byteLen ++ " bytes > " ++
        toString cfg.max_payload_size)), rl')
  else
    match msg.parsed with
    | none => (Except.error (PyErr.validation "Invalid JSON"), rl')
    | some data =>
      match (if cfg.validate_json_structure_flag then
               InputValidator.validate_json_structure cfg data 0
             else Except.ok ()) with
      | Except.error e => (Except.error e, rl')
      | Except.ok _ =>
        match (if cfg.require_auth_token && authenticatorPresent cfg then
                 match auth_token with
                 | none => Except.error (PyErr.security "Authentication token required")
                 | some t =>
                   if t = "" then Except.error (PyErr.security "Authentication token required")
                   else
                     match verifier t with
                     | Except.error e => Except.error e
                     | Except.ok _ => Except.ok ()
               else Except.ok ()) with
        | Except.error e => (Except.error e, rl')
        | Except.ok _ =>
          if hasKey data "method" then
            match pyGet data "method" with
            | some (Json.str method) =>
              match InputValidator.validate_method_name cfg method with
              | Except.error e => (Except.error e, rl')
              | Except.ok _ =>
                if hasKey data "params" then
                  match InputValidator.validate_parameters cfg (pyGet data "params") with
                  | Except.error e => (Except.error e, rl')
                  | Except.ok _ => (Except.ok data, rl')
                else (Except.ok data, rl')
            | _ => (Except.error (PyErr.validation "Method must be a string"), rl')
          else (Except.ok data, rl')

/-! ### Transport (src/pyelectron/ipc/transport.py) -/

/-- `TransportConfig` dataclass (defaults as in the source). -/
structure TransportConfig where
  name : String
  max_connections : Nat := 10
  timeout : ℚ := 30
  buffer_size : Nat := 8192
  security_token : Option String := none

/-- The 4-byte big-endian unsigned length header (`int.from_bytes(b, 'big')`). -/
def beUint32 (bs : List Nat) : Nat :=
  bs.foldl (fun acc b => acc * 256 + b) 0

/-- `reader.readexactly n` on the unread byte stream: `none` models
`asyncio.IncompleteReadError` (stream exhausted before `n` bytes). -/
def readexactly (n : Nat) (stream : List Nat) : Option (List Nat × List Nat) :=
  if stream.length < n then none else some (stream.take n, stream.drop n)

/-- The wrapped size-limit error: `IPCError(f"Message too large: {n} bytes")`
raised inside the `try` body is caught by `except Exception` and re-raised as
`IPCError(f"Receive failed: {e}")`. -/
def messageTooLargeError (n : Nat) : PyErr :=
  PyErr.ipc ("Receive failed: " ++ "Message too large: " ++ toString n ++ " bytes")

/-- `UnixSocketTransport.receive`: read the 4-byte length header, enforce the
`buffer_size * 10` cap before touching the body, then read exactly that many
body bytes.  Returns the outcome and the unread remainder of the stream. -/
def UnixSocketTransport.receive (cfg : TransportConfig) (is_connected : Bool)
    (has_reader : Bool) (stream : List Nat) : Except PyErr (List Nat) × List Nat :=
  if !is_connected || !has_reader then
    (Except.error (PyErr.ipc "Not connected"), stream)
  else
    match readexactly 4 stream with
    | none => (Except.error (PyErr.ipc "Connection closed by peer"), stream)
    | some (length_bytes, rest) =>
      let length := beUint32 length_bytes
      if length > cfg.buffer_size * 10 then
        (Except.error (messageTooLargeError length), rest)
      else
        match readexactly length rest with
        | none => (Except.error (PyErr.ipc "Connection closed by peer"), rest)
        | some (data, rest') => (Except.ok data, rest')

/-! ### Protocol `call_method` (pending-call lifecycle) -/

/-- The ways the `await asyncio.wait_for(future, timeout)` of
`JSONRPCProtocol.call_method` can conclude.  `cancelled` is the awaiting
task being cancelled: `asyncio.CancelledError`, which on Python >= 3.8 (the
package's floor) derives from `BaseException` and so is seen by neither the
`except asyncio.TimeoutError` nor the `except Exception` clause. -/
inductive CallOutcome where
  | respondsResult : Json → CallOutcome  -- peer response `{"result": v}` with our id arrives
  | respondsError : List (String × Json) → CallOutcome  -- peer error response arrives
  | timesOut : CallOutcome
  | cancelled : CallOutcome

/-- `JSONRPCProtocol.call_method` restricted to its pending-table effects:
the future is registered under `request_id`, the request is sent, and the
call concludes per `outcome`.  Arriving responses are routed through
`_handle_response` (which pops the entry and resolves the future); the
timeout clause pops the entry; a generic exception clause pops the entry; a
cancellation pops nothing.  Returns the call's result and the final pending
table. -/
def JSONRPCProtocol.call_method (pending : List (Json × FutureState)) (request_id : Json)
    (outcome : CallOutcome) : Except PyErr (Option Json) × List (Json × FutureState) :=
  let pending1 := pending ++ [(request_id, FutureState.pending)]
  match outcome with
  | CallOutcome.respondsResult v =>
    -- _handle_response pops the entry and set_result(v); wait_for returns v
    let (_, pending2) := JSONRPCProtocol.handle_response pending1
      (create_response request_id v)
    (Except.ok (some v), pending2)
  | CallOutcome.respondsError errFields =>
    -- _handle_response pops and set_exception(RPCError(...)); wait_for raises it,
    -- and the `except Exception` clause pops again (a no-op) and re-raises
    let (_, pending2) := JSONRPCProtocol.handle_response pending1
      (Json.obj [("jsonrpc", Json.str "2.0"), ("id", request_id),
        ("error", Json.obj errFields)])
    (Except.error (PyErr.rpc
      ((lookupField errFields "message").getD (Json.str "Unknown error"))
      ((lookupField errFields "code").getD (Json.num (-1)))
      ((lookupField errFields "data").getD Json.null)), eraseKey pending2 request_id)
  | CallOutcome.timesOut =>
    -- `except asyncio.TimeoutError`: pop and re-raise
    (Except.error PyErr.timeoutErr, eraseKey pending1 request_id)
  | CallOutcome.cancelled =>
    -- CancelledError is a BaseException: no except clause fires, no pop happens
    (Except.error PyErr.cancelledBase,
      (pending1.map (fun kv => if kv.1 = request_id then (kv.1, FutureState.cancelled) else kv)))

/-! ### IPC manager (src/pyelectron/ipc/manager.py) -/

/-- What `IPCManager._handle_message` did with one inbound message:
the optional response written back to the transport, whether the message
reached `protocol.process_message`, and the updated security / protocol
state. -/
structure HandleOutcome where
  response : Option Json
  protocolCalled : Bool
  rl : RateLimiter
  proto : JSONRPCProtocol

/-- `IPCManager._handle_message`: run security validation when a security
layer exists (`security_config` was passed), then hand the message to the
protocol and send back any produced response.  The `validate_incoming_message`
call passes no `auth_token` argument, so it defaults to `None`.  A
`SecurityError` and any other exception are both caught (logged only): no
response is sent and the protocol is never reached. -/
def IPCManager.handle_message (security : Option SecurityConfig)
    (verifier : String → Except PyErr Json) (rl : RateLimiter)
    (proto : JSONRPCProtocol) (msg : RawMsg) (client_id : String) (now : ℚ) :
    HandleOutcome :=
  match security with
  | some cfg =>
    match IPCSecurity.validate_incoming_message cfg verifier rl msg client_id none now with
    | (Except.error _, rl') => ⟨none, false, rl', proto⟩
    | (Except.ok _, rl') =>
      let (resp, proto') := JSONRPCProtocol.process_message proto msg.parsed
      ⟨resp, true, rl', proto'⟩
  | none =>
    match msg.parsed with
    | none => ⟨none, false, rl, proto⟩  -- json.loads raises, caught by `except Exception`
    | some _ =>
      let (resp, proto') := JSONRPCProtocol.process_message proto msg.parsed
      ⟨resp, true, rl, proto'⟩

/-- The outcome of `IPCManager.call_method`: the value returned to the caller
(or the exception raised) and the request written to the transport. -/
structure ManagerCallResult where
  result : Except PyErr (Option Json)
  sent : Option Json

/-- `IPCManager.call_method`: build the request (with a fresh UUID id, taken
as a parameter), send it, and return `None` — the source never registers a
pending call nor awaits the response ("For simplicity, this implementation
doesn't handle responses ... return None  # Placeholder"). -/
def IPCManager.call_method (is_connected : Bool) (request_id : Json) (method : String)
    (params : Option Json) (timeout : ℚ) : ManagerCallResult :=
  if !is_connected then
    ⟨Except.error (PyErr.ipc "Not connected"), none⟩
  else
    let _ := timeout
    ⟨Except.ok none, some (create_request method params request_id)⟩

/-! ### Theorems -/

/-- C5: for every received frame whose 4-byte big-endian declared length is
strictly greater than `buffer_size * 10`, `receive()` fails with the
size-limit error ("Message too large", wrapped into "Receive failed: ..." by
the `except Exception` clause) and consumes exactly the 4 length-header
bytes, never touching the declared body. -/
theorem receive_oversized_frame (cfg : TransportConfig) (stream : List Nat)
    (h4 : 4 ≤ stream.length)
    (hbig : beUint32 (stream.take 4) > cfg.buffer_size * 10) :
    UnixSocketTransport.receive cfg true true stream =
      (Except.error (messageTooLargeError (beUint32 (stream.take 4))), stream.drop 4) := by
  unfold UnixSocketTransport.receive readexactly
  simp [Nat.not_lt.mpr h4, hbig]

/-- Witness for C5: a frame declaring 2^32 - 1 body bytes against the default
8192-byte buffer fails with the size-limit error after the 4 header bytes. -/
theorem receive_oversized_frame_witness :
    4 ≤ ([255, 255, 255, 255] : List Nat).length ∧
    beUint32 (([255, 255, 255, 255] : List Nat).take 4) > 8192 * 10 ∧
    UnixSocketTransport.receive { name := "pyelectron" } true true [255, 255, 255, 255] =
      (Except.error (messageTooLargeError 4294967295), []) :=
  ⟨by decide, by decide,
    receive_oversized_frame { name := "pyelectron" } [255, 255, 255, 255]
      (by decide) (by decide)⟩

/-- The echo handler of the end-to-end example: returns its single argument
(a positional call with any other argument list raises `TypeError`). -/
def echoHandler : Handler := fun p =>
  match p with
  | some (Json.arr [v]) => Except.ok v
  | _ => Except.error (PyErr.generic "TypeError")

/-- A server protocol with only `"echo"` registered and no middleware. -/
def echoProto : JSONRPCProtocol :=
  { methods := [("echo", echoHandler)], middleware := [], pending_requests := [] }

/-- C1 (code bug): on the end-to-end input of the claim,
`IPCManager.call_method("echo", ["hi"], timeout=5)` on a connected client
returns `None`, not `"hi"` — the source sends the request and then
`return None  # Placeholder` without ever registering a pending call or
reading the response.  A server with `"echo"` registered would have produced
the `"hi"` response for the very request that was sent, so the loss is on
the client side. -/
theorem manager_call_method_returns_none :
    (IPCManager.call_method true (Json.str "id1") "echo"
        (some (Json.arr [Json.str "hi"])) 5).result = Except.ok none ∧
    (IPCManager.call_method true (Json.str "id1") "echo"
        (some (Json.arr [Json.str "hi"])) 5).result ≠
      Except.ok (some (Json.str "hi")) ∧
    (JSONRPCProtocol.process_message echoProto
        (some (create_request "echo" (some (Json.arr [Json.str "hi"])) (Json.str "id1")))).1 =
      some (create_response (Json.str "id1") (Json.str "hi")) := by
  refine ⟨rfl, by simp [IPCManager.call_method], ?_⟩
  rfl

/-- C9 (code bug): the pending-call table after `call_method`.  When the
response arrives or the timeout fires, the request id is removed; but when
the awaiting caller is cancelled, `asyncio.CancelledError` (a
`BaseException` on Python >= 3.8) escapes both `except` clauses of
`call_method` and the entry for the id is left behind in
`pending_requests`. -/
theorem call_method_cancellation_leaks :
    (JSONRPCProtocol.call_method [] (Json.str "req-1")
        (CallOutcome.respondsResult (Json.str "ok"))).2 = [] ∧
    (JSONRPCProtocol.call_method [] (Json.str "req-1") CallOutcome.timesOut).2 = [] ∧
    (JSONRPCProtocol.call_method [] (Json.str "req-1")
        (CallOutcome.respondsError [("code", Json.num (-32603)),
          ("message", Json.str "boom")])).2 = [] ∧
    lookupKey (JSONRPCProtocol.call_method [] (Json.str "req-1")
        CallOutcome.cancelled).2 (Json.str "req-1") = some FutureState.cancelled := by
  refine ⟨by decide, by decide, by decide, by decide⟩

/-- A JSON object nested to depth `k`: `k` layers of single-key objects
around a numeric leaf. -/
def nestedObj : Nat → Json
  | 0 => Json.num 0
  | k + 1 => Json.obj [("a", nestedObj k)]

/-- Structural validation accepts `nestedObj k` started at `depth` whenever
the innermost level `depth + k` stays within `max_object_depth`. -/
theorem nested_accept (cfg : SecurityConfig) (k depth : Nat)
    (h : depth + k ≤ cfg.max_object_depth) (hs : 1 ≤ cfg.max_string_length) :
    InputValidator.validate_json_structure cfg (nestedObj k) depth = Except.ok () := by
  induction k generalizing depth with
  | zero =>
    unfold nestedObj InputValidator.validate_json_structure
    simp [Nat.not_lt.mpr (by omega : depth ≤ cfg.max_object_depth)]
  | succ n ih =>
    unfold nestedObj InputValidator.validate_json_structure InputValidator.validateFields
    have hd : ¬ depth > cfg.max_object_depth := Nat.not_lt.mpr (by omega)
    have h1 : String.length "a" = 1 := rfl
    have hk : ¬ (String.length "a" > cfg.max_string_length) := by
      rw [h1]; omega
    simp only [hd, if_false, hk, ite_false]
    rw [ih (depth + 1) (by omega)]
    rfl

/-- Structural validation rejects `nestedObj k` started at `depth` with a
`SecurityError` whenever the innermost level `depth + k` exceeds
`max_object_depth`. -/
theorem nested_reject (cfg : SecurityConfig) (k depth : Nat)
    (h : cfg.max_object_depth < depth + k) :
    ∃ m, InputValidator.validate_json_structure cfg (nestedObj k) depth =
      Except.error (PyErr.security m) := by
  induction k generalizing depth with
  | zero =>
    unfold nestedObj InputValidator.validate_json_structure
    simp [Nat.lt_of_lt_of_le h (by omega : depth + 0 ≤ depth)]
  | succ n ih =>
    by_cases hd : depth > cfg.max_object_depth
    · unfold nestedObj InputValidator.validate_json_structure
      simp [hd]
    · unfold nestedObj InputValidator.validate_json_structure InputValidator.validateFields
      simp only [Nat.not_lt.mp, hd, if_false, ite_false]
      by_cases hk : String.length "a" > cfg.max_string_length
      · simp [hk]
      · obtain ⟨m, hm⟩ := ih (depth + 1) (by omega)
        simp [hk, hm]

/-- C7: for every configured `max_object_depth`, structural validation
accepts an object nested exactly to that depth and raises a `SecurityError`
for an object nested one level deeper (provided single-character keys pass
the string-length cap). -/
theorem depth_boundary (cfg : SecurityConfig) (hs : 1 ≤ cfg.max_string_length) :
    InputValidator.validate_json_structure cfg (nestedObj cfg.max_object_depth) 0 =
      Except.ok () ∧
    ∃ m, InputValidator.validate_json_structure cfg
        (nestedObj (cfg.max_object_depth + 1)) 0 = Except.error (PyErr.security m) :=
  ⟨nested_accept cfg _ 0 (by omega) hs, nested_reject cfg _ 0 (by omega)⟩

/-- Witness for C7 at the default configuration (depth cap 10). -/
theorem depth_boundary_witness :
    1 ≤ SecurityConfig.max_string_length {} ∧
    (InputValidator.validate_json_structure {} (nestedObj (SecurityConfig.max_object_depth {})) 0 =
        Except.ok () ∧
      ∃ m, InputValidator.validate_json_structure {}
          (nestedObj (SecurityConfig.max_object_depth {} + 1)) 0 =
        Except.error (PyErr.security m)) :=
  ⟨by decide, depth_boundary {} (by decide)⟩

/-- A sequence of `check_rate_limit` calls for one client at the given times,
oldest first; returns the results in order and the final limiter state. -/
def runChecks (rl : RateLimiter) (client_id : String) : List ℚ → List Bool × RateLimiter
  | [] => ([], rl)
  | t :: ts =>
    let res := rl.check_rate_limit client_id t
    let rest := runChecks res.2 client_id ts
    (res.1 :: rest.1, rest.2)

theorem dropWhile_eq_self_of_none {p : ℚ → Bool} :
    ∀ (l : List ℚ), (∀ r ∈ l, p r = false) → l.dropWhile p = l
  | [], _ => rfl
  | a :: l, h => by
    simp [List.dropWhile, h a (List.mem_cons_self a l)]

theorem dropWhile_eq_nil_of_all {p : ℚ → Bool} :
    ∀ (l : List ℚ), (∀ r ∈ l, p r = true) → l.dropWhile p = []
  | [], _ => rfl
  | a :: l, h => by
    simp only [List.dropWhile, h a (List.mem_cons_self a l)]
    exact dropWhile_eq_nil_of_all l (fun r hr => h r (List.mem_cons_of_mem a hr))

/-- The queue left for a client after the lazy eviction step of
`check_rate_limit` at time `now`. -/
def RateLimiter.evicted (rl : RateLimiter) (cid : String) (now : ℚ) : List ℚ :=
  (rl.requests cid).dropWhile (fun t => t < now - rl.window_seconds)

/-- `check_rate_limit` under the limit: evict, record, return `true`;
the limit and window are unchanged. -/
theorem check_rate_limit_true (rl : RateLimiter) (cid : String) (now : ℚ)
    (h : (rl.evicted cid now).length < rl.max_requests) :
    (rl.check_rate_limit cid now).1 = true ∧
    (rl.check_rate_limit cid now).2.requests cid = rl.evicted cid now ++ [now] ∧
    (rl.check_rate_limit cid now).2.max_requests = rl.max_requests ∧
    (rl.check_rate_limit cid now).2.window_seconds = rl.window_seconds := by
  unfold RateLimiter.check_rate_limit RateLimiter.evicted
  unfold RateLimiter.evicted at h
  simp [Nat.not_le.mpr h]

/-- `check_rate_limit` at the limit: evict, refuse, record nothing. -/
theorem check_rate_limit_false (rl : RateLimiter) (cid : String) (now : ℚ)
    (h : rl.max_requests ≤ (rl.evicted cid now).length) :
    (rl.check_rate_limit cid now).1 = false ∧
    (rl.check_rate_limit cid now).2.requests cid = rl.evicted cid now ∧
    (rl.check_rate_limit cid now).2.max_requests = rl.max_requests ∧
    (rl.check_rate_limit cid now).2.window_seconds = rl.window_seconds := by
  unfold RateLimiter.check_rate_limit RateLimiter.evicted
  unfold RateLimiter.evicted at h
  simp [h]

/-- A client queue of timestamps `≥ t0` loses nothing to eviction at a time
`≤ t0 + W`. -/
theorem evicted_eq_self (rl : RateLimiter) (cid : String) (now t0 : ℚ)
    (hstored : ∀ r ∈ rl.requests cid, t0 ≤ r) (hnow : now ≤ t0 + rl.window_seconds) :
    rl.evicted cid now = rl.requests cid := by
  refine dropWhile_eq_self_of_none _ (fun r hr => ?_)
  have h1 := hstored r hr
  simp only [decide_eq_false_iff_not, not_lt]
  linarith

/-- Checks at times within `[t0, t0 + W]` against a queue of timestamps
`≥ t0` evict nothing; while the count stays within the limit every check
returns `true` and appends its timestamp. -/
theorem runChecks_within_window (cid : String) (t0 : ℚ) :
    ∀ (ts : List ℚ) (rl : RateLimiter),
    (∀ r ∈ rl.requests cid, t0 ≤ r) →
    (∀ t ∈ ts, t0 ≤ t ∧ t ≤ t0 + rl.window_seconds) →
    (rl.requests cid).length + ts.length ≤ rl.max_requests →
    (runChecks rl cid ts).1 = List.replicate ts.length true ∧
    (runChecks rl cid ts).2.requests cid = rl.requests cid ++ ts ∧
    (runChecks rl cid ts).2.max_requests = rl.max_requests ∧
    (runChecks rl cid ts).2.window_seconds = rl.window_seconds := by
  intro ts
  induction ts with
  | nil => intro rl _ _ _; exact ⟨rfl, by simp [runChecks], rfl, rfl⟩
  | cons t ts ih =>
    intro rl hstored hts hlen
    have hnoevict : rl.evicted cid t = rl.requests cid :=
      evicted_eq_self rl cid t t0 hstored (hts t (List.mem_cons_self t ts)).2
    have hunder : (rl.evicted cid t).length < rl.max_requests := by
      rw [hnoevict]
      simp only [List.length_cons] at hlen
      omega
    obtain ⟨hc1, hc2, hc3, hc4⟩ := check_rate_limit_true rl cid t hunder
    rw [hnoevict] at hc2
    have ihh := ih (rl.check_rate_limit cid t).2
      (by
        rw [hc2]
        intro r hr
        rcases List.mem_append.mp hr with h | h
        · exact hstored r h
        · rw [List.mem_singleton.mp h]
          exact (hts t (List.mem_cons_self t ts)).1)
      (by
        rw [hc4]
        exact fun u hu => hts u (List.mem_cons_of_mem t hu))
      (by
        rw [hc2, hc3]
        simp only [List.length_append, List.length_cons, List.length_nil] at hlen ⊢
        omega)
    refine ⟨?_, ?_, ?_, ?_⟩
    · show ((rl.check_rate_limit cid t).1 ::
        (runChecks (rl.check_rate_limit cid t).2 cid ts).1) = _
      rw [hc1, ihh.1]
      simp [List.replicate_succ]
    · show (runChecks (rl.check_rate_limit cid t).2 cid ts).2.requests cid = _
      rw [ihh.2.1, hc2]
      simp
    · show (runChecks (rl.check_rate_limit cid t).2 cid ts).2.max_requests = _
      rw [ihh.2.2.1, hc3]
    · show (runChecks (rl.check_rate_limit cid t).2 cid ts).2.window_seconds = _
      rw [ihh.2.2.2, hc4]

/-- C4 (amended): for a `RateLimiter` with `max_requests = N` and window `W`
and a fixed peer, starting from an empty window: the first `N` checks (at
any times within `[t0, t0 + W]`) all return `true`; a further check within
the window returns `false`; and a check at a time strictly more than `W`
after every recorded timestamp returns `true` again.  Moreover every check
either returns `true`, evicting expired timestamps and recording the
current one, or returns `false` after the eviction only (the model's
totality mirrors the absence of any raise path in the source). -/
theorem rate_limiter_window (N : Nat) (hN : 0 < N) (W t0 : ℚ) (cid : String)
    (ts : List ℚ) (hlen : ts.length = N)
    (hts : ∀ t ∈ ts, t0 ≤ t ∧ t ≤ t0 + W)
    (tB : ℚ) (htBW : tB ≤ t0 + W)
    (tR : ℚ) (hR : ∀ t ∈ ts, t + W < tR)
    (f0 : String → List ℚ) (hf0 : f0 cid = []) :
    (runChecks ⟨N, W, f0⟩ cid ts).1 = List.replicate N true ∧
    ((runChecks ⟨N, W, f0⟩ cid ts).2.check_rate_limit cid tB).1 = false ∧
    (((runChecks ⟨N, W, f0⟩ cid ts).2.check_rate_limit cid tB).2.check_rate_limit
      cid tR).1 = true ∧
    (∀ (rl : RateLimiter) (c : String) (now : ℚ),
      ((rl.check_rate_limit c now).1 = true ∧
        (rl.check_rate_limit c now).2.requests c = rl.evicted c now ++ [now]) ∨
      ((rl.check_rate_limit c now).1 = false ∧
        (rl.check_rate_limit c now).2.requests c = rl.evicted c now)) := by
  have hreq0 : (⟨N, W, f0⟩ : RateLimiter).requests cid = [] := hf0
  have hrun := runChecks_within_window cid t0 ts ⟨N, W, f0⟩
    (by rw [hreq0]; intro r hr; cases hr)
    hts
    (by rw [hreq0, hlen]; simp)
  obtain ⟨hrun1, hrun2, hrun3, hrun4⟩ := hrun
  set rl1 := (runChecks ⟨N, W, f0⟩ cid ts).2 with hrl1
  have hreq1 : rl1.requests cid = ts := by rw [hrun2, hreq0]; rfl
  have hwin1 : rl1.window_seconds = W := hrun4
  have hmax1 : rl1.max_requests = N := hrun3
  have hev1 : rl1.evicted cid tB = ts := by
    rw [← hreq1]
    exact evicted_eq_self rl1 cid tB t0
      (by rw [hreq1]; exact fun r hr => (hts r hr).1)
      (by rw [hwin1]; exact htBW)
  have hfull : rl1.max_requests ≤ (rl1.evicted cid tB).length := by
    rw [hev1, hlen, hmax1]
  obtain ⟨hB1, hB2, hB3, hB4⟩ := check_rate_limit_false rl1 cid tB hfull
  set rl2 := (rl1.check_rate_limit cid tB).2 with hrl2
  have hreq2 : rl2.requests cid = ts := by rw [hB2, hev1]
  have hev2 : rl2.evicted cid tR = [] := by
    unfold RateLimiter.evicted
    rw [hreq2]
    refine dropWhile_eq_nil_of_all ts (fun r hr => ?_)
    have := hR r hr
    rw [hB4, hwin1]
    simp only [decide_eq_true_eq]
    linarith
  have hempty : (rl2.evicted cid tR).length < rl2.max_requests := by
    rw [hev2, hB3, hmax1]
    simpa using hN
  refine ⟨by rw [hrun1, hlen], hB1, (check_rate_limit_true rl2 cid tR hempty).1, ?_⟩
  intro rl c now
  by_cases h : (rl.evicted c now).length < rl.max_requests
  · exact Or.inl ⟨(check_rate_limit_true rl c now h).1,
      (check_rate_limit_true rl c now h).2.1⟩
  · exact Or.inr ⟨(check_rate_limit_false rl c now (Nat.le_of_not_lt h)).1,
      (check_rate_limit_false rl c now (Nat.le_of_not_lt h)).2.1⟩

/-- Witness for C4: `N = 2`, `W = 60`, checks at times 0 and 1, a refused
third check at 30, and a successful recovery check at 100. -/
theorem rate_limiter_window_witness :
    (runChecks ⟨2, 60, fun _ => []⟩ "c" [0, 1]).1 = List.replicate 2 true ∧
    ((runChecks ⟨2, 60, fun _ => []⟩ "c" [0, 1]).2.check_rate_limit "c" 30).1 = false ∧
    (((runChecks ⟨2, 60, fun _ => []⟩ "c" [0, 1]).2.check_rate_limit "c" 30).2.check_rate_limit
      "c" 100).1 = true ∧
    (∀ (rl : RateLimiter) (c : String) (now : ℚ),
      ((rl.check_rate_limit c now).1 = true ∧
        (rl.check_rate_limit c now).2.requests c = rl.evicted c now ++ [now]) ∨
      ((rl.check_rate_limit c now).1 = false ∧
        (rl.check_rate_limit c now).2.requests c = rl.evicted c now)) :=
  rate_limiter_window 2 (by norm_num) 60 0 "c" [0, 1] rfl
    (by intro t ht; fin_cases ht <;> norm_num)
    30 (by norm_num) 100 (by intro t ht; fin_cases ht <;> norm_num)
    (fun _ => []) rfl

/-- C4 counterexample: with `max_requests = 1`, `window_seconds = 60`, a
first check at time 0 returns `true`, and a second check at time 60 — made
*at least* `W` seconds after the earlier one — still returns `false`: the
eviction condition `timestamp < now - window` is strict, so the boundary
call finds the window full.  This refutes the claim's recovery clause for
the boundary case. -/
theorem rate_limit_exact_window_refusal :
    (RateLimiter.check_rate_limit ⟨1, 60, fun _ => []⟩ "c" 0).1 = true ∧
    ((RateLimiter.check_rate_limit ⟨1, 60, fun _ => []⟩ "c" 0).2.check_rate_limit
      "c" 60).1 = false ∧
    (60 : ℚ) - 0 ≥ 60 := by
  have h1 : ((⟨1, 60, fun _ => []⟩ : RateLimiter).evicted "c" 0) = [] := rfl
  have ht := check_rate_limit_true ⟨1, 60, fun _ => []⟩ "c" 0 (by rw [h1]; norm_num)
  refine ⟨ht.1, ?_, by norm_num⟩
  set rl1 := (RateLimiter.check_rate_limit ⟨1, 60, fun _ => []⟩ "c" 0).2 with hrl1
  have hreq : rl1.requests "c" = [0] := by rw [ht.2.1, h1]; rfl
  have hwin : rl1.window_seconds = 60 := ht.2.2.2
  have hmax : rl1.max_requests = 1 := ht.2.2.1
  have hev : rl1.evicted "c" 60 = [0] := by
    unfold RateLimiter.evicted
    rw [hreq, hwin]
    norm_num [List.dropWhile]
  exact (check_rate_limit_false rl1 "c" 60 (by rw [hev, hmax]; simp)).1

theorem rsplitBar_eq_none {l : List Char} (h : '|' ∉ l) : rsplitBar l = none := by
  induction l with
  | nil => rfl
  | cons c rest ih =>
    have hc : ¬ (c = '|') := fun he => h (he ▸ List.mem_cons_self c rest)
    have hr : '|' ∉ rest := fun hm => h (List.mem_cons_of_mem c hm)
    simp [rsplitBar, ih hr, hc]

/-- `rsplit('|', 1)` recovers the payload and signature of a well-formed
token as long as the signature itself contains no pipe. -/
theorem rsplitBar_append (jp : List Char) {sig : List Char} (h : '|' ∉ sig) :
    rsplitBar (jp ++ '|' :: sig) = some (jp, sig) := by
  induction jp with
  | nil =>
    simp [rsplitBar, rsplitBar_eq_none h]
  | cons c jp ih =>
    simp [rsplitBar, ih]

/-- `{**payload, 'timestamp': t}` stores the timestamp under `'timestamp'`. -/
theorem lookupField_setKey (fs : List (String × Json)) (k : String) (v : Json) :
    lookupField (setKey fs k v) k = some v := by
  induction fs with
  | nil => simp [setKey, lookupField]
  | cons kv rest ih =>
    obtain ⟨k', v'⟩ := kv
    by_cases h : k' = k
    · subst h; simp [setKey, lookupField]
    · simp [setKey, lookupField, h, ih]

/-- C6: token verification fails closed.
(a) For every generated token, verification with `max_age_seconds = 0` after
at least one elapsed second fails with a message mentioning "expired".
(b) For every generated token with one character of its hex signature
altered (to a different, non-pipe character), verification fails with the
invalid-signature error.
(c) Verification returns a payload only when the signature matches the
recomputed HMAC, the payload parses, and its timestamp is within the
caller's maximum age — so bad signature, malformed payload and excessive
age can never yield a payload.
Hypotheses on the abstract primitives: the hexdigest contains no pipe
character (true of hexadecimal output), and `json.loads` inverts
`json.dumps` on the claims object. -/
theorem token_verification_fails_closed :
    (∀ (hmacHex : List Char → List Char) (dumps : List (String × Json) → List Char)
       (loads : List Char → Except (List Char) Json) (payload : List (String × Json))
       (t0 elapsed : Int), 1 ≤ elapsed →
       '|' ∉ hmacHex (dumps (setKey payload "timestamp" (Json.num t0))) →
       loads (dumps (setKey payload "timestamp" (Json.num t0))) =
         Except.ok (Json.obj (setKey payload "timestamp" (Json.num t0))) →
       ∃ msg, TokenAuthenticator.verify_token hmacHex loads
           (TokenAuthenticator.generate_token hmacHex dumps payload t0) 0 (t0 + elapsed) =
           Except.error msg ∧ "expired".toList <:+: msg) ∧
    (∀ (hmacHex : List Char → List Char)
       (loads : List Char → Except (List Char) Json) (jp : List Char)
       (i : Nat) (c : Char) (maxAge now : Int) (hi : i < (hmacHex jp).length),
       c ≠ (hmacHex jp).get ⟨i, hi⟩ → c ≠ '|' → '|' ∉ hmacHex jp →
       TokenAuthenticator.verify_token hmacHex loads
           (jp ++ '|' :: (hmacHex jp).set i c) maxAge now =
         Except.error (wrapVerifyMsg "Invalid token signature".toList)) ∧
    (∀ (hmacHex : List Char → List Char)
       (loads : List Char → Except (List Char) Json) (token : List Char)
       (maxAge now : Int) (p : Json),
       TokenAuthenticator.verify_token hmacHex loads token maxAge now = Except.ok p →
       ∃ jp sig, rsplitBar token = some (jp, sig) ∧ sig = hmacHex jp ∧
         loads jp = Except.ok p ∧
         ∃ fs ts, p = Json.obj fs ∧ lookupField fs "timestamp" = some (Json.num ts) ∧
           now - ts ≤ maxAge) := by
  refine ⟨?_, ?_, ?_⟩
  · -- (a) expiry
    intro hmacHex dumps loads payload t0 elapsed helapsed hnobar hround
    refine ⟨wrapVerifyMsg (tokenExpiredMsg (t0 + elapsed - t0) 0), ?_, ?_⟩
    · unfold TokenAuthenticator.generate_token TokenAuthenticator.verify_token
      rw [rsplitBar_append _ hnobar]
      simp only [ne_eq, not_true_eq_false, if_false, ite_false, hround,
        lookupField_setKey]
      have hage : t0 + elapsed - t0 > 0 := by omega
      simp only [gt_iff_lt] at hage
      simp [hage]
      omega
    · have h1 : "expired".toList <:+: "Token expired: ".toList := by decide
      refine h1.trans ?_
      unfold wrapVerifyMsg tokenExpiredMsg
      exact ⟨"Token verification failed: ".toList,
        (toString (t0 + elapsed - t0)).toList ++ "s > ".toList ++
          (toString (0 : Int)).toList ++ "s".toList, by simp⟩
  · -- (b) altered signature
    intro hmacHex loads jp i c maxAge now hi hne hc hnobar
    have hnobar' : '|' ∉ (hmacHex jp).set i c := by
      intro hm
      rcases List.mem_or_eq_of_mem_set hm with h | h
      · exact hnobar h
      · exact hc h.symm
    have hneq : (hmacHex jp).set i c ≠ hmacHex jp := by
      intro he
      have h2 : ((hmacHex jp).set i c)[i]? = some c := by
        simp [List.getElem?_set_self, hi]
      rw [he] at h2
      have h3 : (hmacHex jp)[i]? = some ((hmacHex jp).get ⟨i, hi⟩) := by
        simp [List.getElem?_eq_getElem, hi]
      rw [h2] at h3
      exact hne (Option.some.inj h3)
    unfold TokenAuthenticator.verify_token
    rw [rsplitBar_append _ hnobar']
    simp [hneq]
  · -- (c) fails closed
    intro hmacHex loads token maxAge now p h
    unfold TokenAuthenticator.verify_token at h
    rcases hsplit : rsplitBar token with _ | ⟨jp, sig⟩
    · rw [hsplit] at h; cases h
    · rw [hsplit] at h
      by_cases hsig : sig ≠ hmacHex jp
      · simp [hsig] at h
      · push_neg at hsig
        simp only [hsig, ne_eq, not_true_eq_false, if_false, ite_false] at h
        rcases hload : loads jp with e | q
        · rw [hload] at h; cases h
        · rw [hload] at h
          rcases q with _ | b | n | str | xs | fs
          · cases h
          · cases h
          · cases h
          · cases h
          · cases h
          · dsimp only at h
            rcases hts : lookupField fs "timestamp" with _ | tsv
            · rw [hts] at h; cases h
            · rw [hts] at h
              rcases tsv with _ | b2 | ts | s2 | xs2 | fs2
              · cases h
              · cases h
              · by_cases hage : now - ts > maxAge
                · simp [hage] at h
                · simp only [hage, if_false, ite_false] at h
                  cases h
                  exact ⟨jp, sig, rfl, hsig, hload, fs, ts, rfl, hts, by omega⟩
              · cases h
              · cases h
              · cases h

/-- Witness for C6: an expiry check at concrete primitives (constant
hexdigest "00", one-field claims object, one elapsed second, zero maximum
age) produces an error mentioning "expired". -/
theorem token_verification_fails_closed_witness :
    ∃ msg, TokenAuthenticator.verify_token (fun _ => "00".toList)
        (fun _ => Except.ok (Json.obj (setKey [] "timestamp" (Json.num 0))))
        (TokenAuthenticator.generate_token (fun _ => "00".toList)
          (fun _ => "x".toList) [] 0) 0 (0 + 1) =
        Except.error msg ∧ "expired".toList <:+: msg :=
  token_verification_fails_closed.1 (fun _ => "00".toList) (fun _ => "x".toList)
    (fun _ => Except.ok (Json.obj (setKey [] "timestamp" (Json.num 0)))) [] 0 1
    (by norm_num) (by decide) rfl

/-- The shapes `_handle_request` binds to a handler call: absent params,
positional params (array) or keyword params (object). -/
def paramsOk : Option Json → Bool
  | none => true
  | some (Json.arr _) => true
  | some (Json.obj _) => true
  | _ => false

theorem dGet_of_pyGet_ne_null {j : Json} {k : String} {v : Json}
    (h : pyGet j k = some v) (hv : v ≠ Json.null) : dGet j k = some v := by
  unfold dGet
  rw [h]
  cases v
  · exact absurd rfl hv
  all_goals rfl

/-- C2: round-trip.  For every registered method `m` with handler `h`, every
handler-accepted params shape `p` (absent, array or object), and every
non-null id, feeding the message built by `create_request m p id` to
`process_message` (on a peer whose middleware passes) yields exactly the
serialized response with the original id and the handler's return value,
and leaves the protocol state unchanged. -/
theorem round_trip (proto : JSONRPCProtocol) (m : String) (h : Handler)
    (p : Option Json) (rid : Json) (r : Json)
    (hm : lookupField proto.methods m = some h)
    (hp : paramsOk p = true)
    (hmw : runMiddleware proto.middleware m p = Except.ok ())
    (hh : h p = Except.ok r)
    (hrid : rid ≠ Json.null) :
    JSONRPCProtocol.process_message proto (some (create_request m p rid)) =
      (some (create_response rid r), proto) := by
  have hid : dGet (create_request m p rid) "id" = some rid := by
    refine dGet_of_pyGet_ne_null ?_ hrid
    rcases p with _ | v <;> simp [create_request, pyGet, lookupField]
  rcases p with _ | v
  · unfold JSONRPCProtocol.process_message JSONRPCProtocol.handle_request
    simp only [create_request, List.append_nil] at hid ⊢
    simp [dGet, pyGet, lookupField, hasKey, Json.isObj, hid, hm, hmw, hh]
    cases rid
    · exact absurd rfl hrid
    all_goals rfl
  · rcases v with _ | b | n | s | xs | fs
    case bool => simp [paramsOk] at hp
    case num => simp [paramsOk] at hp
    case str => simp [paramsOk] at hp
    case null => simp [paramsOk] at hp
    case arr =>
      unfold JSONRPCProtocol.process_message JSONRPCProtocol.handle_request
      simp only [create_request] at hid ⊢
      simp [dGet, pyGet, lookupField, hasKey, Json.isObj, hid, hm, hmw, hh]
      cases rid
      · exact absurd rfl hrid
      all_goals rfl
    case obj =>
      unfold JSONRPCProtocol.process_message JSONRPCProtocol.handle_request
      simp only [create_request] at hid ⊢
      simp [dGet, pyGet, lookupField, hasKey, Json.isObj, hid, hm, hmw, hh]
      cases rid
      · exact absurd rfl hrid
      all_goals rfl

/-- Witness for C2: the `"echo"` round trip with params `["hi"]` and id
`"42"`. -/
theorem round_trip_witness :
    JSONRPCProtocol.process_message echoProto
        (some (create_request "echo" (some (Json.arr [Json.str "hi"])) (Json.str "42"))) =
      (some (create_response (Json.str "42") (Json.str "hi")), echoProto) :=
  round_trip echoProto "echo" echoHandler (some (Json.arr [Json.str "hi"]))
    (Json.str "42") (Json.str "hi") rfl rfl rfl rfl (by decide)

theorem pyGet_of_dGet {j : Json} {k : String} {v : Json} (h : dGet j k = some v) :
    pyGet j k = some v := by
  unfold dGet at h
  rcases hp : pyGet j k with _ | w
  · rw [hp] at h; cases h
  · rw [hp] at h
    cases w <;> simp_all

/-- C8 (amended): a well-formed notification — a JSON object with
`jsonrpc: "2.0"`, a string-valued `method` and no id (absent or `null`) —
never produces a response from `process_message`, whether or not the method
is registered and whatever the middleware or the handler does. -/
theorem notifications_silent (proto : JSONRPCProtocol) (data : Json) (name : String)
    (hobj : data.isObj = true)
    (hv : dGet data "jsonrpc" = some (Json.str "2.0"))
    (hm : dGet data "method" = some (Json.str name))
    (hid : dGet data "id" = none) :
    (JSONRPCProtocol.process_message proto (some data)).1 = none := by
  have hk : hasKey data "method" = true := by
    unfold hasKey
    rw [pyGet_of_dGet hm]
    rfl
  unfold JSONRPCProtocol.process_message
  simp only [hobj, Bool.not_true, Bool.false_eq_true, if_false, ite_false, hv, hk, if_true,
    ite_true, ne_eq, not_true_eq_false]
  unfold JSONRPCProtocol.handle_request
  rw [hid, hm]
  dsimp only
  repeat' split
  all_goals rfl

/-- C8 counterexample: the message `{"jsonrpc":"2.0","method":1}` carries a
`method` field and no `id` field, yet `process_message` returns the
serialized Invalid-Request error response (the non-string method check
answers with an error even though no id is present), not `None`. -/
theorem nonstring_method_notification_responds :
    (JSONRPCProtocol.process_message
        { methods := [], middleware := [], pending_requests := [] }
        (some (Json.obj [("jsonrpc", Json.str "2.0"), ("method", Json.num 1)]))).1 =
      some (invalid_request_error none) ∧
    (JSONRPCProtocol.process_message
        { methods := [], middleware := [], pending_requests := [] }
        (some (Json.obj [("jsonrpc", Json.str "2.0"), ("method", Json.num 1)]))).1 ≠
      none := by
  refine ⟨rfl, ?_⟩
  intro hc
  cases (rfl.symm.trans hc :
    some (invalid_request_error none) = (none : Option Json))

/-- Witness for C8: the notification `{"jsonrpc":"2.0","method":"foo"}` with
`"foo"` unregistered yields no response. -/
theorem notifications_silent_witness :
    (JSONRPCProtocol.process_message
        { methods := [], middleware := [], pending_requests := [] }
        (some (Json.obj [("jsonrpc", Json.str "2.0"), ("method", Json.str "foo")]))).1 =
      none :=
  notifications_silent { methods := [], middleware := [], pending_requests := [] }
    (Json.obj [("jsonrpc", Json.str "2.0"), ("method", Json.str "foo")]) "foo"
    rfl rfl rfl rfl

/-- Every non-null output of `_handle_request` is a success response or an
error response. -/
theorem handle_request_shape (proto : JSONRPCProtocol) (data : Json) :
    proto.handle_request data = none ∨
    (∃ rid r, proto.handle_request data = some (create_response rid r)) ∨
    (∃ rid code msg d, proto.handle_request data =
      some (create_error_response rid code msg d)) := by
  unfold JSONRPCProtocol.handle_request invalid_request_error
  dsimp only
  repeat' split
  all_goals first
    | exact Or.inl rfl
    | exact Or.inr (Or.inl ⟨_, _, rfl⟩)
    | exact Or.inr (Or.inr ⟨_, _, _, _, rfl⟩)

theorem create_response_envelope (rid r : Json) :
    pyGet (create_response rid r) "jsonrpc" = some (Json.str "2.0") ∧
    (hasKey (create_response rid r) "result" ||
      hasKey (create_response rid r) "error") = true := by
  constructor <;> rfl

theorem create_error_response_envelope (rid : Option Json) (code : Int) (msg : String)
    (d : Json) :
    pyGet (create_error_response rid code msg d) "jsonrpc" = some (Json.str "2.0") ∧
    (hasKey (create_error_response rid code msg d) "result" ||
      hasKey (create_error_response rid code msg d) "error") = true := by
  constructor <;> rfl

/-- C10: `process_message` is total at its interface.  For every parse
outcome of an input string — unparseable text, a non-object value, a wrong
or missing `jsonrpc` tag, an unregistered or non-string method, bad params,
raising middleware or handler, and responses resolving a missing, done or
cancelled future — the result is either `none` or a serialized JSON-RPC
response envelope (`jsonrpc: "2.0"` with a `result` or `error` member);
no modelled exception escapes (the `except` clauses of the source cover
every raise path of the body). -/
theorem process_message_total (proto : JSONRPCProtocol) (parsed : Option Json) :
    (JSONRPCProtocol.process_message proto parsed).1 = none ∨
    (∃ env, (JSONRPCProtocol.process_message proto parsed).1 = some env ∧
      pyGet env "jsonrpc" = some (Json.str "2.0") ∧
      (hasKey env "result" || hasKey env "error") = true) := by
  rcases parsed with _ | data
  · exact Or.inr ⟨_, rfl, (create_error_response_envelope _ _ _ _).1,
      (create_error_response_envelope _ _ _ _).2⟩
  · unfold JSONRPCProtocol.process_message invalid_request_error
    dsimp only
    repeat' split
    all_goals
      first
      | exact Or.inl rfl
      | exact Or.inr ⟨_, rfl, (create_error_response_envelope _ _ _ _).1,
          (create_error_response_envelope _ _ _ _).2⟩
      | (rcases handle_request_shape proto data with h | ⟨rid, r, h⟩ | ⟨rid, c, m, d, h⟩ <;>
          first
          | exact Or.inl h
          | exact Or.inr ⟨_, h, (create_response_envelope rid r).1,
              (create_response_envelope rid r).2⟩
          | exact Or.inr ⟨_, h, (create_error_response_envelope rid c m d).1,
              (create_error_response_envelope rid c m d).2⟩)

/-- C3 (amended): when the manager's security config requires an auth token
and an authenticator exists, `_handle_message` validates with
`auth_token=None`, so validation fails on *every* inbound message (at the
auth step, or at an earlier check), the message never reaches the protocol
and no response is sent; a message that passes rate limiting, the size
check, JSON parsing and structural validation fails precisely with
`SecurityError("Authentication token required")`. -/
theorem auth_token_deadlock (cfg : SecurityConfig) (verifier : String → Except PyErr Json)
    (rl : RateLimiter) (proto : JSONRPCProtocol) (msg : RawMsg) (client_id : String)
    (now : ℚ)
    (hreq : cfg.require_auth_token = true) (hauth : authenticatorPresent cfg = true) :
    (IPCManager.handle_message (some cfg) verifier rl proto msg client_id now).response =
      none ∧
    (IPCManager.handle_message (some cfg) verifier rl proto msg client_id
      now).protocolCalled = false ∧
    (∀ data, msg.parsed = some data →
      (rl.check_rate_limit client_id now).1 = true →
      msg.byteLen ≤ cfg.max_payload_size →
      (cfg.validate_json_structure_flag = true →
        InputValidator.validate_json_structure cfg data 0 = Except.ok ()) →
      (IPCSecurity.validate_incoming_message cfg verifier rl msg client_id none now).1 =
        Except.error (PyErr.security "Authentication token required")) := by
  have herr : ∀ res : Except PyErr Json × RateLimiter,
      IPCSecurity.validate_incoming_message cfg verifier rl msg client_id none now = res →
      ∃ e, res.1 = Except.error e := by
    intro res hres
    unfold IPCSecurity.validate_incoming_message at hres
    rcases hcheck : rl.check_rate_limit client_id now with ⟨b, rl2⟩
    rw [hcheck] at hres
    rcases b
    · simp only [Bool.not_false, if_true, ite_true] at hres
      exact ⟨_, by rw [← hres]⟩
    · simp only [Bool.not_true, Bool.false_eq_true, if_false, ite_false] at hres
      by_cases hsize : msg.byteLen > cfg.max_payload_size
      · rw [if_pos hsize] at hres
        exact ⟨_, by rw [← hres]⟩
      · rw [if_neg hsize] at hres
        rcases hp : msg.parsed with _ | data
        · rw [hp] at hres
          exact ⟨_, by rw [← hres]⟩
        · rw [hp] at hres
          dsimp only at hres
          rcases hstruct : (if cfg.validate_json_structure_flag = true then
              InputValidator.validate_json_structure cfg data 0 else Except.ok ())
            with e | u
          · rw [hstruct] at hres
            exact ⟨_, by rw [← hres]⟩
          · rw [hstruct] at hres
            rw [hreq, hauth] at hres
            simp only [Bool.and_self, if_true, ite_true] at hres
            exact ⟨_, by rw [← hres]⟩
  refine ⟨?_, ?_, ?_⟩
  · unfold IPCManager.handle_message
    dsimp only
    rcases hv : IPCSecurity.validate_incoming_message cfg verifier rl msg client_id none now
      with ⟨vres, rl'⟩
    obtain ⟨e, he⟩ := herr _ hv
    dsimp only at he
    subst he
    rfl
  · unfold IPCManager.handle_message
    dsimp only
    rcases hv2 : IPCSecurity.validate_incoming_message cfg verifier rl msg client_id none now
      with ⟨vres, rl'⟩
    obtain ⟨e, he⟩ := herr _ hv2
    dsimp only at he
    subst he
    rfl
  · intro data hparsed hrate hsize hstruct
    unfold IPCSecurity.validate_incoming_message
    rcases hcheck : rl.check_rate_limit client_id now with ⟨b, rl2⟩
    rw [hcheck] at hrate
    dsimp only at hrate ⊢
    subst hrate
    rw [hparsed]
    simp only [Bool.not_true, Bool.false_eq_true, if_false, ite_false]
    rw [if_neg (by omega : ¬ msg.byteLen > cfg.max_payload_size)]
    have hs : (if cfg.validate_json_structure_flag = true then
        InputValidator.validate_json_structure cfg data 0 else Except.ok ()) =
        Except.ok () := by
      by_cases hf : cfg.validate_json_structure_flag
      · rw [if_pos hf]; exact hstruct hf
      · rw [if_neg hf]
    rw [hs, hreq, hauth]
    rfl

/-- C3 counterexample: with auth required and a token configured, an inbound
message that is not valid JSON makes `validate_incoming_message` raise
`ValidationError("Invalid JSON: ...")` — not
`SecurityError("Authentication token required")` — because the parse step
precedes the authentication step.  (The message still never reaches the
protocol; only the claim's "raises SecurityError('Authentication token
required') for every inbound message" is false.) -/
theorem auth_error_not_universal :
    (IPCSecurity.validate_incoming_message
        { require_auth_token := true, auth_token := some "secret" }
        (fun _ => Except.ok Json.null) ⟨100, 60, fun _ => []⟩
        ⟨9, none⟩ "client-1" none 0).1 =
      Except.error (PyErr.validation "Invalid JSON") ∧
    (IPCSecurity.validate_incoming_message
        { require_auth_token := true, auth_token := some "secret" }
        (fun _ => Except.ok Json.null) ⟨100, 60, fun _ => []⟩
        ⟨9, none⟩ "client-1" none 0).1 ≠
      Except.error (PyErr.security "Authentication token required") := by
  refine ⟨rfl, ?_⟩
  intro hc
  exact PyErr.noConfusion (Except.error.inj ((rfl :
    (IPCSecurity.validate_incoming_message
        { require_auth_token := true, auth_token := some "secret" }
        (fun _ => Except.ok Json.null) ⟨100, 60, fun _ => []⟩
        ⟨9, none⟩ "client-1" none 0).1 =
      Except.error (PyErr.validation "Invalid JSON")).symm.trans hc))

/-- Witness for C3: a small well-formed message against a fresh limiter. -/
theorem auth_token_deadlock_witness :
    (IPCManager.handle_message
        (some { require_auth_token := true, auth_token := some "secret" })
        (fun _ => Except.ok Json.null) ⟨100, 60, fun _ => []⟩ echoProto
        ⟨2, some (Json.obj [])⟩ "client-1" 0).response = none ∧
    (IPCManager.handle_message
        (some { require_auth_token := true, auth_token := some "secret" })
        (fun _ => Except.ok Json.null) ⟨100, 60, fun _ => []⟩ echoProto
        ⟨2, some (Json.obj [])⟩ "client-1" 0).protocolCalled = false ∧
    (∀ data, (RawMsg.mk 2 (some (Json.obj []))).parsed = some data →
      (RateLimiter.check_rate_limit ⟨100, 60, fun _ => []⟩ "client-1" 0).1 = true →
      (RawMsg.mk 2 (some (Json.obj []))).byteLen ≤
        SecurityConfig.max_payload_size
          { require_auth_token := true, auth_token := some "secret" } →
      (SecurityConfig.validate_json_structure_flag
          { require_auth_token := true, auth_token := some "secret" } = true →
        InputValidator.validate_json_structure
          { require_auth_token := true, auth_token := some "secret" } data 0 =
          Except.ok ()) →
      (IPCSecurity.validate_incoming_message
          { require_auth_token := true, auth_token := some "secret" }
          (fun _ => Except.ok Json.null) ⟨100, 60, fun _ => []⟩
          ⟨2, some (Json.obj [])⟩ "client-1" none 0).1 =
        Except.error (PyErr.security "Authentication token required")) :=
  auth_token_deadlock { require_auth_token := true, auth_token := some "secret" }
    (fun _ => Except.ok Json.null) ⟨100, 60, fun _ => []⟩ echoProto
    ⟨2, some (Json.obj [])⟩ "client-1" 0 rfl rfl
